import Mathlib

/-
Verification of the T-Rex runner simulation core (src/src/vite-env.d.ts,
component TRexGame).  The component's game logic is shallowly embedded here:
coordinates, speeds and probabilities are modelled as exact rationals (ℚ),
the score as a natural number (in the source it only ever holds naturals),
and the React state setters (setScore, setGameOver, setGameWon, setDarkTheme,
setHighScore) as direct writes to the corresponding fields of an explicit
state record.  Within one invocation of updateGame the source never reads
the React state variables it sets, so this is behaviour-preserving per tick;
across ticks the setters become visible exactly at the start of the next
update, as here.  Render-only fields of the source state (animationFrame,
animationSpeed, scoreCounter — the last is written at init and never read)
are omitted: no gameplay decision reads them.
-/

namespace TRex

/-- GameObject (source lines 20-25): an axis-aligned rectangle. -/
structure Rect where
  x : ℚ
  y : ℚ
  width : ℚ
  height : ℚ
  deriving DecidableEq

/-- PlayerObject (source lines 27-30). -/
structure PlayerObject where
  x : ℚ
  y : ℚ
  width : ℚ
  height : ℚ
  velocityY : ℚ
  isJumping : Bool
  deriving DecidableEq

/-- Obstacle (source lines 32-34). -/
structure Obstacle where
  x : ℚ
  y : ℚ
  width : ℚ
  height : ℚ
  passed : Bool
  deriving DecidableEq

def PlayerObject.toRect (p : PlayerObject) : Rect :=
  ⟨p.x, p.y, p.width, p.height⟩

def Obstacle.toRect (o : Obstacle) : Rect :=
  ⟨o.x, o.y, o.width, o.height⟩

/-- BASE_WIDTH (source line 50). -/
def BASE_WIDTH : ℚ := 800

/-- MAX_SCORE (source line 53). -/
def MAX_SCORE : ℕ := 99999

/-- PLAYER_X_POS = BASE_WIDTH / 2 - 20 (source line 56). -/
def PLAYER_X_POS : ℚ := BASE_WIDTH / 2 - 20

/--
Aggregate simulation + session state: the fields of gameState.current
(source lines 67-87) together with the React state the simulation reads and
writes (score, gameStarted, gameOver, gameWon, darkTheme).  score mirrors
both the score state and currentScoreRef, which the source keeps in sync.
-/
structure GameState where
  player : PlayerObject
  obstacles : List Obstacle
  ground : Rect
  gameSpeed : ℚ
  gravity : ℚ
  jumpPower : ℚ
  obstacleSpawnRate : ℚ
  lastObstacleX : ℚ
  lastThemeChangeScore : ℕ
  score : ℕ
  gameStarted : Bool
  gameOver : Bool
  gameWon : Bool
  darkTheme : Bool
  deriving DecidableEq

/-- checkCollision (source lines 588-593): the AABB overlap test. -/
def checkCollision (rect1 rect2 : Rect) : Bool :=
  decide (rect1.x < rect2.x + rect2.width) &&
  decide (rect1.x + rect1.width > rect2.x) &&
  decide (rect1.y < rect2.y + rect2.height) &&
  decide (rect1.y + rect1.height > rect2.y)

/--
checkThemeChange (source lines 651-660), as a function of the new score, the
recorded last theme-change score and the current theme flag; returns the new
theme flag and the new last theme-change score.  Math.floor of a quotient of
naturals is natural division.
-/
def checkThemeChange (score lastThemeChangeScore : ℕ) (darkTheme : Bool) :
    Bool × ℕ :=
  if score / 120 > lastThemeChangeScore / 120 then
    (!darkTheme, score)
  else
    (darkTheme, lastThemeChangeScore)

/--
The game-speed recompute of updateGame (source lines 729-733):
min(baseSpeed + score * 0.0008, maxSpeed) with baseSpeed = 1.5,
maxSpeed = 6.0.
-/
def speed (s : ℕ) : ℚ := min ((1.5 : ℚ) + (s : ℚ) * 0.0008) 6.0

/--
The spawn-rate recompute of updateGame (source lines 736-739):
min(baseSpawnRate + score * 0.000008, maxSpawnRate) with
baseSpawnRate = 0.006, maxSpawnRate = 0.015.
-/
def spawnRate (s : ℕ) : ℚ := min ((0.006 : ℚ) + (s : ℚ) * 0.000008) 0.015

/--
The body of the obstacles.forEach callback in updateGame (source lines
697-726) at index k.  JavaScript forEach passes the element currently at
index k (skipping when k is out of range, which happens after a splice);
the callback moves the obstacle, runs the pass/score/theme/win block, the
collision check, and finally splice(k, 1) when the obstacle has moved fully
off screen.  splice is List.eraseIdx at k.
-/
def processObstacle (g : GameState) (k : ℕ) : GameState :=
  match g.obstacles[k]? with
  | none => g
  | some o =>
    let o1 : Obstacle := { o with x := o.x - g.gameSpeed }
    let passNow : Bool :=
      !o1.passed && decide (o1.x + o1.width < g.player.x + g.player.width / 2)
    let o2 : Obstacle := if passNow then { o1 with passed := true } else o1
    let score1 : ℕ := if passNow then g.score + 10 else g.score
    let themed : Bool × ℕ :=
      if passNow then checkThemeChange score1 g.lastThemeChangeScore g.darkTheme
      else (g.darkTheme, g.lastThemeChangeScore)
    let won1 : Bool :=
      if passNow && decide (score1 ≥ MAX_SCORE) then true else g.gameWon
    let over1 : Bool :=
      if checkCollision g.player.toRect o2.toRect then true else g.gameOver
    let obs1 : List Obstacle := g.obstacles.set k o2
    let obs2 : List Obstacle :=
      if decide (o2.x + o2.width < 0) then obs1.eraseIdx k else obs1
    { g with obstacles := obs2, score := score1, darkTheme := themed.1,
             lastThemeChangeScore := themed.2, gameWon := won1,
             gameOver := over1 }

/--
The obstacles.forEach loop of updateGame: JavaScript forEach captures the
array length once at entry (the fuel) and calls the callback for indices
0, 1, ... up to that length, consulting the live (possibly spliced) array at
each index.
-/
def obstacleLoop : ℕ → ℕ → GameState → GameState
  | 0, _, g => g
  | fuel + 1, k, g => obstacleLoop fuel (k + 1) (processObstacle g k)

/--
The player-physics and ground-scroll block of updateGame (source lines
667-681): when airborne, add gravity to the vertical velocity, add the
velocity to y, and on reaching or passing the ground line y = 150 snap to
it, zero the velocity and clear the jumping flag; then scroll the ground by
the current speed.
-/
def physicsStep (g : GameState) : GameState :=
  let p0 := g.player
  let p1 : PlayerObject :=
    if p0.isJumping then
      let v := p0.velocityY + g.gravity
      let y := p0.y + v
      if y ≥ 150 then { p0 with y := 150, velocityY := 0, isJumping := false }
      else { p0 with y := y, velocityY := v }
    else p0
  { g with player := p1, ground := { g.ground with x := g.ground.x - g.gameSpeed } }

/--
The obstacle spawn block of updateGame (source lines 684-694): spawn a new
obstacle at the right edge when the random sample is below the current spawn
rate and the minimum-gap condition BASE_WIDTH - lastObstacleX > 400 holds.
-/
def spawnStep (sample : ℚ) (g : GameState) : GameState :=
  if decide (sample < g.obstacleSpawnRate) &&
     decide (BASE_WIDTH - g.lastObstacleX > 400) then
    { g with obstacles := g.obstacles ++ [⟨BASE_WIDTH, 175, 18, 25, false⟩],
             lastObstacleX := BASE_WIDTH }
  else g

/--
The body of updateGame past the lifecycle gate (source lines 665-741):
physics and ground scroll, spawn, the forEach over obstacles, difficulty
recompute from the updated score, and the final lastObstacleX decrement by
the just-recomputed speed.
-/
def runTick (sample : ℚ) (g : GameState) : GameState :=
  let g2 := spawnStep sample (physicsStep g)
  let g3 := obstacleLoop g2.obstacles.length 0 g2
  { g3 with gameSpeed := speed g3.score, obstacleSpawnRate := spawnRate g3.score,
            lastObstacleX := g3.lastObstacleX - speed g3.score }

/--
updateGame (source lines 662-742) as a state transition.  sample is the
Math.random() draw of this tick.  The lifecycle gate returns the state
unchanged unless the game is started and neither terminal flag is set.
-/
def updateGame (sample : ℚ) (g0 : GameState) : GameState :=
  if !g0.gameStarted || g0.gameOver || g0.gameWon then g0
  else runTick sample g0

/--
resetGame (source lines 612-640): reinitialises score, lifecycle flags,
theme and the whole simulation state record (the stored best score is not
part of this record and is untouched by the source function).
-/
def resetGame : GameState :=
  { player := ⟨PLAYER_X_POS, 150, 40, 40, 0, false⟩,
    obstacles := [],
    ground := ⟨0, 200, 800, 20⟩,
    gameSpeed := 1.5,
    gravity := 0.3,
    jumpPower := -10,
    obstacleSpawnRate := 0.006,
    lastObstacleX := 800,
    lastThemeChangeScore := 0,
    score := 0,
    gameStarted := true,
    gameOver := false,
    gameWon := false,
    darkTheme := false }

/--
jump (source lines 595-610): start the game when not started; reset when in
a terminal state; otherwise apply the jump impulse only when grounded.
-/
def jump (g : GameState) : GameState :=
  if !g.gameStarted then { g with gameStarted := true }
  else if g.gameOver || g.gameWon then resetGame
  else if !g.player.isJumping then
    { g with player := { g.player with velocityY := g.jumpPower, isJumping := true } }
  else g

/--
The component-mount state: useState initial values (score 0, all lifecycle
and theme flags false) and the gameState.current initialiser (source lines
40-47 and 67-87).
-/
def initialGameState : GameState :=
  { player := ⟨PLAYER_X_POS, 150, 40, 40, 0, false⟩,
    obstacles := [],
    ground := ⟨0, 200, 800, 20⟩,
    gameSpeed := 1.5,
    gravity := 0.3,
    jumpPower := -10,
    obstacleSpawnRate := 0.006,
    lastObstacleX := 800,
    lastThemeChangeScore := 0,
    score := 0,
    gameStarted := false,
    gameOver := false,
    gameWon := false,
    darkTheme := false }

/--
The high-score useEffect (source lines 643-648), as a function of the two
terminal lifecycle flags, the current score and the stored best score.  It
returns the resulting best score together with the list of persistence
writes issued (localStorage.setItem calls).  The source effect consults only
gameOver; the gameWon flag is passed so that the specified behaviour on the
won state can be stated, but — as in the source — it is never read.
-/
def highScoreUpdate (gameOver gameWon : Bool) (score highScore : ℕ) :
    ℕ × List ℕ :=
  if gameOver && decide (score > highScore) then (score, [score])
  else (highScore, [])

/--
JavaScript parseInt(s, 10): skip leading whitespace, read an optional sign
and then the maximal run of decimal digits; the result is NaN — modelled as
none — when that run is empty.
-/
def parseIntJS (s : String) : Option Int :=
  let cs := s.toList.dropWhile fun c => c = ' ' ∨ c = '\t' ∨ c = '\n' ∨ c = '\r'
  let signed : Int × List Char :=
    match cs with
    | '-' :: t => (-1, t)
    | '+' :: t => (1, t)
    | _ => (1, cs)
  let ds := signed.2.takeWhile Char.isDigit
  if ds.isEmpty then none
  else some (signed.1 * (ds.foldl (fun a c => a * 10 + (c.toNat - 48)) 0 : ℕ))

/--
The localStorage load effect (source lines 59-64): getItem returns null
(none) when the key is missing; the stored string is parsed only when it is
truthy, i.e. non-empty, otherwise the initial best score 0 stands.  The
result is the best score the session starts with, none meaning NaN.
-/
def loadHighScore (saved : Option String) : Option Int :=
  match saved with
  | none => some 0
  | some s => if s = "" then some 0 else parseIntJS s

/-- The mounted-but-started session state used in concrete scenarios. -/
def startedState : GameState := { initialGameState with gameStarted := true }

/--
C1: the high-score effect runs only when gameOver is set.  On entering the
won state (gameWon = true, gameOver = false) with current score 600 and best
score 500, the source leaves the best score at 500 and issues no persistence
write, although the specified behaviour is to update to 600 and write once.
-/
theorem c1_highScoreUpdate_ignores_won :
    highScoreUpdate false true 600 500 = (500, []) := by decide

/--
C4 counterexample: the claim quantifies over rectangles with non-negative
width and height and asserts that identical rectangles always intersect; the
identical zero-size rectangle has non-negative dimensions yet checkCollision
returns false on it (all four strict inequalities fail).
-/
theorem c4_counterexample :
    0 ≤ (⟨0, 0, 0, 0⟩ : Rect).width ∧ 0 ≤ (⟨0, 0, 0, 0⟩ : Rect).height ∧
    checkCollision ⟨0, 0, 0, 0⟩ ⟨0, 0, 0, 0⟩ = false := by
  with_unfolding_all decide

/-- Propositional characterisation of checkCollision. -/
lemma checkCollision_eq_true (a b : Rect) :
    checkCollision a b = true ↔
      (a.x < b.x + b.width ∧ a.x + a.width > b.x ∧
       a.y < b.y + b.height ∧ a.y + a.height > b.y) := by
  simp [checkCollision, and_assoc]

lemma bool_eq_of_iff {x y : Bool} (h : x = true ↔ y = true) : x = y := by
  cases x <;> cases y <;> simp_all

/--
C4 (amended): checkCollision returns true iff the standard AABB overlap
conjunction holds; it is symmetric; rectangles merely touching on either
axis never intersect; and identical rectangles with positive width and
height always intersect.
-/
theorem c4_checkCollision (a b : Rect) :
    (checkCollision a b = true ↔
      (a.x < b.x + b.width ∧ a.x + a.width > b.x ∧
       a.y < b.y + b.height ∧ a.y + a.height > b.y))
    ∧ checkCollision a b = checkCollision b a
    ∧ ((a.x + a.width = b.x ∨ b.x + b.width = a.x ∨
        a.y + a.height = b.y ∨ b.y + b.height = a.y) →
        checkCollision a b = false)
    ∧ (0 < a.width → 0 < a.height → checkCollision a a = true) := by
  refine ⟨checkCollision_eq_true a b, ?_, ?_, ?_⟩
  · apply bool_eq_of_iff
    rw [checkCollision_eq_true, checkCollision_eq_true]
    constructor
    · rintro ⟨h1, h2, h3, h4⟩; exact ⟨h2, h1, h4, h3⟩
    · rintro ⟨h1, h2, h3, h4⟩; exact ⟨h2, h1, h4, h3⟩
  · intro h
    rw [Bool.eq_false_iff]
    intro hT
    obtain ⟨h1, h2, h3, h4⟩ := (checkCollision_eq_true a b).mp hT
    rcases h with h | h | h | h <;> linarith
  · intro hw hh
    rw [checkCollision_eq_true]
    refine ⟨?_, ?_, ?_, ?_⟩ <;> linarith

/-- C4 witness: the amended theorem applied at concrete rectangles. -/
theorem c4_checkCollision_witness :
    checkCollision ⟨0, 0, 3, 3⟩ ⟨2, 2, 3, 3⟩ =
      checkCollision ⟨2, 2, 3, 3⟩ ⟨0, 0, 3, 3⟩
    ∧ checkCollision ⟨0, 0, 3, 3⟩ ⟨0, 0, 3, 3⟩ = true :=
  ⟨(c4_checkCollision ⟨0, 0, 3, 3⟩ ⟨2, 2, 3, 3⟩).2.1,
   (c4_checkCollision ⟨0, 0, 3, 3⟩ ⟨0, 0, 3, 3⟩).2.2.2 (by decide) (by decide)⟩

/--
C5 counterexample: a stored value that is not numeric is not treated as best
score 0 — the source applies parseInt to any truthy string, so the stored
value "abc" yields NaN (modelled none), not 0.
-/
theorem c5_counterexample :
    loadHighScore (some "abc") = none ∧ loadHighScore (some "abc") ≠ some 0 := by
  decide

/--
C5 (amended): a missing stored value, or the empty (falsy) string, leaves
the best score at 0; every other stored value is handed verbatim to
parseInt, so a numeric string loads as its value and a string with no
leading integer yields NaN rather than 0.
-/
theorem c5_loadHighScore :
    loadHighScore none = some 0
    ∧ loadHighScore (some "") = some 0
    ∧ (∀ s : String, s ≠ "" → loadHighScore (some s) = parseIntJS s)
    ∧ parseIntJS "500" = some 500
    ∧ parseIntJS "abc" = none := by
  refine ⟨rfl, by decide, ?_, by decide, by decide⟩
  intro s hs
  simp [loadHighScore, hs]

/-- C5 witness: the amended theorem applied at the stored string "500". -/
theorem c5_loadHighScore_witness : loadHighScore (some "500") = some 500 := by
  have h := c5_loadHighScore.2.2.1 "500" (by decide)
  rw [h]
  decide

/--
C10: invoking jump while the game is running (started, not game-over, not
won) with the player already airborne leaves the whole state unchanged.
-/
theorem c10_jump_airborne_noop (g : GameState) (h1 : g.gameStarted = true)
    (h2 : g.gameOver = false) (h3 : g.gameWon = false)
    (h4 : g.player.isJumping = true) : jump g = g := by
  simp [jump, h1, h2, h3, h4]

/-- A running state whose player is mid-air. -/
def gAir : GameState :=
  { startedState with
    player := { startedState.player with isJumping := true, velocityY := -7 } }

/-- C10 witness: the theorem applied at a concrete mid-air running state. -/
theorem c10_jump_airborne_noop_witness : jump gAir = gAir :=
  c10_jump_airborne_noop gAir rfl rfl rfl rfl

lemma processObstacle_none {g : GameState} {k : ℕ}
    (h : g.obstacles[k]? = none) : processObstacle g k = g := by
  unfold processObstacle
  rw [h]

lemma processObstacle_gameSpeed (g : GameState) (k : ℕ) :
    (processObstacle g k).gameSpeed = g.gameSpeed := by
  unfold processObstacle
  cases h : g.obstacles[k]? <;> rfl

lemma processObstacle_player (g : GameState) (k : ℕ) :
    (processObstacle g k).player = g.player := by
  unfold processObstacle
  cases h : g.obstacles[k]? <;> rfl

lemma processObstacle_score_some {g : GameState} {k : ℕ} {o : Obstacle}
    (h : g.obstacles[k]? = some o) :
    (processObstacle g k).score = g.score +
      (if o.passed = false ∧
          o.x - g.gameSpeed + o.width < g.player.x + g.player.width / 2
       then 10 else 0) := by
  unfold processObstacle
  rw [h]
  by_cases hp : o.passed <;>
    by_cases hP : o.x - g.gameSpeed + o.width < g.player.x + g.player.width / 2 <;>
    simp [hp, hP]

lemma processObstacle_score (g : GameState) (k : ℕ) :
    (processObstacle g k).score = g.score ∨
    (processObstacle g k).score = g.score + 10 := by
  cases h : g.obstacles[k]? with
  | none => exact Or.inl (by rw [processObstacle_none h])
  | some o =>
    rw [processObstacle_score_some h]
    split
    · exact Or.inr rfl
    · exact Or.inl (by omega)

lemma processObstacle_won_mono {g : GameState} {k : ℕ} (h : g.gameWon = true) :
    (processObstacle g k).gameWon = true := by
  unfold processObstacle
  cases hk : g.obstacles[k]? with
  | none => exact h
  | some o =>
    simp only
    split <;> simp [h]

lemma processObstacle_won_of_score {g : GameState} {k : ℕ}
    (hlt : g.score < (processObstacle g k).score)
    (hmax : (processObstacle g k).score ≥ MAX_SCORE) :
    (processObstacle g k).gameWon = true := by
  cases hk : g.obstacles[k]? with
  | none => rw [processObstacle_none hk] at hlt; omega
  | some o =>
    rw [processObstacle_score_some hk] at hlt hmax
    by_cases hC : o.passed = false ∧
        o.x - g.gameSpeed + o.width < g.player.x + g.player.width / 2
    · rw [if_pos hC] at hmax
      unfold processObstacle
      rw [hk]
      simp [hC.1, hC.2, hC, hmax]
    · rw [if_neg hC] at hlt
      omega

lemma obstacleLoop_score (fuel : ℕ) : ∀ (k : ℕ) (g : GameState),
    ∃ m, (obstacleLoop fuel k g).score = g.score + 10 * m := by
  induction fuel with
  | zero => exact fun k g => ⟨0, rfl⟩
  | succ n ih =>
    intro k g
    obtain ⟨m, hm⟩ := ih (k + 1) (processObstacle g k)
    rcases processObstacle_score g k with h | h
    · exact ⟨m, by simp only [obstacleLoop]; rw [hm, h]⟩
    · exact ⟨m + 1, by simp only [obstacleLoop]; rw [hm, h]; omega⟩

lemma obstacleLoop_won_mono (fuel : ℕ) : ∀ (k : ℕ) (g : GameState),
    g.gameWon = true → (obstacleLoop fuel k g).gameWon = true := by
  induction fuel with
  | zero => exact fun k g h => h
  | succ n ih =>
    intro k g h
    simp only [obstacleLoop]
    exact ih (k + 1) (processObstacle g k) (processObstacle_won_mono h)

lemma obstacleLoop_win (fuel : ℕ) : ∀ (k : ℕ) (g : GameState),
    (obstacleLoop fuel k g).score ≥ MAX_SCORE →
    g.score < (obstacleLoop fuel k g).score →
    (obstacleLoop fuel k g).gameWon = true := by
  induction fuel with
  | zero => intro k g _ hlt; simp only [obstacleLoop] at hlt; omega
  | succ n ih =>
    intro k g hmax hlt
    simp only [obstacleLoop] at hmax hlt ⊢
    by_cases hstep : (processObstacle g k).score <
        (obstacleLoop n (k + 1) (processObstacle g k)).score
    · exact ih (k + 1) (processObstacle g k) hmax hstep
    · obtain ⟨m, hm⟩ := obstacleLoop_score n (k + 1) (processObstacle g k)
      have heq : (obstacleLoop n (k + 1) (processObstacle g k)).score =
          (processObstacle g k).score := by omega
      apply obstacleLoop_won_mono
      apply processObstacle_won_of_score (k := k) <;> omega

lemma physicsStep_score (g : GameState) : (physicsStep g).score = g.score := rfl

lemma physicsStep_gameSpeed (g : GameState) :
    (physicsStep g).gameSpeed = g.gameSpeed := rfl

lemma spawnStep_score (sample : ℚ) (g : GameState) :
    (spawnStep sample g).score = g.score := by
  unfold spawnStep
  split <;> rfl

lemma runTick_score (sample : ℚ) (g : GameState) :
    (runTick sample g).score =
      (obstacleLoop (spawnStep sample (physicsStep g)).obstacles.length 0
        (spawnStep sample (physicsStep g))).score := rfl

lemma runTick_gameWon (sample : ℚ) (g : GameState) :
    (runTick sample g).gameWon =
      (obstacleLoop (spawnStep sample (physicsStep g)).obstacles.length 0
        (spawnStep sample (physicsStep g))).gameWon := rfl

lemma updateGame_gate {sample : ℚ} {g : GameState}
    (h : (!g.gameStarted || g.gameOver || g.gameWon) = true) :
    updateGame sample g = g := by
  unfold updateGame
  rw [h]
  rfl

lemma updateGame_run {sample : ℚ} {g : GameState}
    (h : (!g.gameStarted || g.gameOver || g.gameWon) = false) :
    updateGame sample g = runTick sample g := by
  unfold updateGame
  rw [h]
  rfl

/--
A running state one obstacle short of the win threshold, with two obstacles
that both cross the pass line (player centre x = 400) on the same tick
without touching the player.
-/
def gCex : GameState :=
  { startedState with
    score := 99990,
    obstacles := [⟨351.5, 175, 18, 25, false⟩, ⟨361.5, 175, 18, 25, false⟩] }

/--
C2 counterexample: on a tick in which the first passed obstacle lifts the
score to the maximum, transitioning the lifecycle to won, the second
obstacle of the same iteration is still processed and increments the score
again — the update ends with gameWon set but score 99990 + 20, not
99990 + 10, so a score increment is applied after the transition to won.
-/
theorem c2_counterexample :
    gCex.score + 10 ≥ MAX_SCORE
    ∧ (updateGame ((1:ℚ)/2) gCex).gameWon = true
    ∧ (updateGame ((1:ℚ)/2) gCex).score = gCex.score + 20 := by
  with_unfolding_all decide

/--
C2 (amended): reaching the maximum score does transition the lifecycle to
won, and the won flag gates whole subsequent ticks (an update invoked on a
won state is the identity); but the transition does not stop the remainder
of the tick in which it happens — obstacles later in that iteration are
still processed, as the counterexample shows.
-/
theorem c2_win_terminal (sample : ℚ) (g : GameState) :
    (g.gameWon = true → updateGame sample g = g)
    ∧ (MAX_SCORE ≤ (updateGame sample g).score →
        g.score < (updateGame sample g).score →
        (updateGame sample g).gameWon = true) := by
  constructor
  · intro h
    apply updateGame_gate
    rw [h]
    simp
  · intro hmax hlt
    cases hb : (!g.gameStarted || g.gameOver || g.gameWon) with
    | true => rw [updateGame_gate hb] at hlt; omega
    | false =>
      rw [updateGame_run hb] at hmax hlt ⊢
      rw [runTick_gameWon]
      rw [runTick_score] at hmax hlt
      apply obstacleLoop_win _ _ _ hmax
      have h2 : (spawnStep sample (physicsStep g)).score = g.score := by
        rw [spawnStep_score, physicsStep_score]
      omega

/-- A state already in the won lifecycle phase. -/
def gWon : GameState := { startedState with gameWon := true, score := 99999 }

/-- C2 witness: the amended theorem applied at concrete states. -/
theorem c2_win_terminal_witness :
    updateGame ((1:ℚ)/2) gWon = gWon
    ∧ (updateGame ((1:ℚ)/2) gCex).gameWon = true := by
  constructor
  · exact (c2_win_terminal ((1:ℚ)/2) gWon).1 rfl
  · exact (c2_win_terminal ((1:ℚ)/2) gCex).2
      (by with_unfolding_all decide) (by with_unfolding_all decide)

/-- An obstacle fully off the left edge of the field. -/
def oOff : Obstacle := ⟨-100, 175, 18, 25, true⟩

/-- A running state with two adjacent fully off-screen obstacles. -/
def gSkip : GameState := { startedState with obstacles := [oOff, oOff] }

/--
C3 counterexample: with two adjacent obstacles both fully off screen, the
update removes the first, and the splice inside the forEach shifts the
array so that the second — whose right edge is strictly negative — is
skipped: it survives the update unmoved, contradicting the claim that every
obstacle with strictly negative right edge is removed by the next update.
-/
theorem c3_counterexample :
    oOff.x + oOff.width < 0
    ∧ (updateGame ((1:ℚ)/2) gSkip).obstacles = [oOff] := by
  with_unfolding_all decide

lemma processObstacle_obstacles_of_safe {g : GameState} {k : ℕ} {o : Obstacle}
    (hk : g.obstacles[k]? = some o)
    (h0 : 0 ≤ o.x - g.gameSpeed + o.width) :
    ∃ o2 : Obstacle, (processObstacle g k).obstacles = g.obstacles.set k o2 := by
  unfold processObstacle
  rw [hk]
  by_cases hp : o.passed <;>
    by_cases hP : o.x - g.gameSpeed + o.width < g.player.x + g.player.width / 2 <;>
    simp [hp, hP, not_lt.mpr h0]

lemma obstacleLoop_length (fuel : ℕ) : ∀ (k : ℕ) (g : GameState),
    (∀ i, k ≤ i → ∀ p : Obstacle, g.obstacles[i]? = some p →
        0 ≤ p.x - g.gameSpeed + p.width) →
    (obstacleLoop fuel k g).obstacles.length = g.obstacles.length := by
  induction fuel with
  | zero => intro k g _; rfl
  | succ n ih =>
    intro k g hsafe
    simp only [obstacleLoop]
    cases hk : g.obstacles[k]? with
    | none =>
      rw [processObstacle_none hk]
      exact ih (k + 1) g fun i hi => hsafe i (by omega)
    | some o =>
      obtain ⟨o2, ho2⟩ := processObstacle_obstacles_of_safe hk
        (hsafe k le_rfl o hk)
      have hlen : (processObstacle g k).obstacles.length =
          g.obstacles.length := by
        rw [ho2, List.length_set]
      rw [ih (k + 1) (processObstacle g k) ?_, hlen]
      intro i hi p hp
      rw [ho2, List.getElem?_set_ne (by omega)] at hp
      rw [processObstacle_gameSpeed]
      exact hsafe i (by omega) p hp

/--
C3 (amended): measured after the movement the update applies to each
obstacle it visits, a visited obstacle is removed by the update exactly when
its right edge is strictly negative (so one with right edge at or beyond the
left boundary is never removed); but because the source splices the array
inside the forEach, the obstacle following a removed one is skipped for that
update, so an off-screen obstacle is only guaranteed removal when no
obstacle before it is removed in the same pass — in particular, when every
obstacle still on screen after moving, the iteration removes nothing.
-/
theorem c3_removal (g : GameState) (k : ℕ) (o : Obstacle)
    (ho : g.obstacles[k]? = some o) :
    ((processObstacle g k).obstacles.length =
      if o.x - g.gameSpeed + o.width < 0
      then g.obstacles.length - 1 else g.obstacles.length)
    ∧ ((∀ i, k ≤ i → ∀ p : Obstacle, g.obstacles[i]? = some p →
          0 ≤ p.x - g.gameSpeed + p.width) →
        ∀ fuel, (obstacleLoop fuel k g).obstacles.length =
          g.obstacles.length) := by
  constructor
  · have hklt : k < g.obstacles.length := (List.getElem?_eq_some_iff.mp ho).1
    unfold processObstacle
    rw [ho]
    by_cases hp : o.passed <;>
      by_cases hP : o.x - g.gameSpeed + o.width <
        g.player.x + g.player.width / 2 <;>
      by_cases hR : o.x - g.gameSpeed + o.width < 0 <;>
      simp [hp, hP, hR, List.length_eraseIdx_of_lt, hklt]
  · intro hsafe fuel
    exact obstacleLoop_length fuel k g hsafe

/-- A running state with a single fully off-screen obstacle. -/
def gOne : GameState := { startedState with obstacles := [oOff] }

/-- A running state with a single obstacle far from the left edge. -/
def gSafe : GameState :=
  { startedState with obstacles := [⟨400, 175, 18, 25, false⟩] }

/-- C3 witness: the amended theorem applied at concrete states. -/
theorem c3_removal_witness :
    (processObstacle gOne 0).obstacles.length = 0
    ∧ (obstacleLoop 1 0 gSafe).obstacles.length = 1 := by
  constructor
  · have h := (c3_removal gOne 0 oOff rfl).1
    rw [h]
    with_unfolding_all decide
  · have h := (c3_removal gSafe 0 ⟨400, 175, 18, 25, false⟩ rfl).2
    have hs : ∀ i, 0 ≤ i → ∀ p : Obstacle, gSafe.obstacles[i]? = some p →
        0 ≤ p.x - gSafe.gameSpeed + p.width := by
      intro i _ p hp
      cases i with
      | zero =>
        have hpe : p = ⟨400, 175, 18, 25, false⟩ := by
          simpa [gSafe, startedState, initialGameState] using hp.symm
        rw [hpe]
        with_unfolding_all decide
      | succ j =>
        simp [gSafe, startedState, initialGameState] at hp
    exact h hs 1

/--
The within-tick score/theme iteration: each passed obstacle adds 10 to the
score and immediately runs checkThemeChange on the new score (source lines
701-709), threading the recorded last theme-change score; the final
component counts how many times the theme flag flipped.
-/
def themeRun : ℕ → ℕ → ℕ → Bool → ℕ → ℕ × ℕ × Bool × ℕ
  | 0, s, last, dark, flips => (s, last, dark, flips)
  | n + 1, s, last, dark, flips =>
    let s1 := s + 10
    let t := checkThemeChange s1 last dark
    themeRun n s1 t.2 t.1 (flips + (if t.1 != dark then 1 else 0))

lemma checkThemeChange_pos {s last : ℕ} {dark : Bool}
    (h : s / 120 > last / 120) :
    checkThemeChange s last dark = (!dark, s) := by
  unfold checkThemeChange
  rw [if_pos h]

lemma checkThemeChange_neg {s last : ℕ} {dark : Bool}
    (h : ¬ s / 120 > last / 120) :
    checkThemeChange s last dark = (dark, last) := by
  unfold checkThemeChange
  rw [if_neg h]

lemma themeRun_flips (n : ℕ) : ∀ (s last : ℕ) (dark : Bool) (flips : ℕ),
    last / 120 = s / 120 →
    (themeRun n s last dark flips).2.2.2 =
      flips + ((s + 10 * n) / 120 - s / 120) := by
  induction n with
  | zero => intro s last dark flips h; simp [themeRun]
  | succ m ih =>
    intro s last dark flips h
    have hb1 : ∀ d : Bool, (if ((!d) != d) = true then (1:ℕ) else 0) = 1 := by
      decide
    have hb2 : ∀ d : Bool, (if (d != d) = true then (1:ℕ) else 0) = 0 := by
      decide
    simp only [themeRun]
    by_cases hgt : (s + 10) / 120 > last / 120
    · rw [checkThemeChange_pos hgt]
      dsimp only
      rw [hb1 dark, ih (s + 10) (s + 10) (!dark) (flips + 1) rfl]
      omega
    · rw [checkThemeChange_neg hgt]
      dsimp only
      rw [hb2 dark, ih (s + 10) last dark (flips + 0) (by omega)]
      omega

/--
C6: during a running tick the theme flag is flipped iff the quotient of the
new score by 120 exceeds — equivalently, given that the recorded last
theme-change score never exceeds the current score, differs from — the
quotient of the recorded score by 120; on a flip the new score is recorded,
on no flip the record is kept; and across any number of within-tick
increments of 10 starting from a state whose record agrees with the score
modulo the threshold, the number of flips is exactly the number of full
multiples of 120 crossed (the spec example 115 to 135 flips exactly once).
-/
theorem c6_theme (s last : ℕ) (dark : Bool) (n : ℕ) :
    (last ≤ s →
      (((checkThemeChange s last dark).1 ≠ dark) ↔ s / 120 ≠ last / 120))
    ∧ ((checkThemeChange s last dark).1 ≠ dark →
        (checkThemeChange s last dark).2 = s)
    ∧ ((checkThemeChange s last dark).1 = dark →
        (checkThemeChange s last dark).2 = last)
    ∧ (last / 120 = s / 120 →
        (themeRun n s last dark 0).2.2.2 = (s + 10 * n) / 120 - s / 120) := by
  refine ⟨?_, ?_, ?_, ?_⟩
  · intro hle
    unfold checkThemeChange
    by_cases hgt : s / 120 > last / 120
    · rw [if_pos hgt]
      constructor
      · intro _; omega
      · intro _; cases dark <;> simp
    · rw [if_neg hgt]
      constructor
      · intro hd; exact absurd rfl hd
      · intro hne
        have : s / 120 ≤ last / 120 := by omega
        have : last / 120 ≤ s / 120 := by omega
        omega
  · unfold checkThemeChange
    split
    · intro _; rfl
    · intro hd; exact absurd rfl hd
  · unfold checkThemeChange
    split
    · intro hd; cases dark <;> simp_all
    · intro _; rfl
  · intro h
    simpa using themeRun_flips n s last dark 0 h

/-- C6 witness: the theorem applied at the spec example inputs. -/
theorem c6_theme_witness :
    ((checkThemeChange 125 115 false).1 ≠ false)
    ∧ (themeRun 2 115 115 false 0).2.2.2 = (115 + 10 * 2) / 120 - 115 / 120 := by
  constructor
  · exact ((c6_theme 125 115 false 0).1 (by decide)).mpr (by decide)
  · exact (c6_theme 115 115 false 2).2.2.2 (by decide)

/--
C7: on a running tick the recomputed game speed is
min(1.5 + score * 0.0008, 6.0) and the recomputed spawn rate is
min(0.006 + score * 0.000008, 0.015), both taken at the tick's updated
score; both curves are monotonically non-decreasing in the score, bounded by
their maxima 6.0 and 0.015, and equal to the base values 1.5 and 0.006 at
score 0.
-/
theorem c7_difficulty (S T : ℕ) (g : GameState) (sample : ℚ)
    (hrun : (!g.gameStarted || g.gameOver || g.gameWon) = false) :
    (updateGame sample g).gameSpeed =
      min ((1.5 : ℚ) + ((updateGame sample g).score : ℚ) * 0.0008) 6.0
    ∧ (updateGame sample g).obstacleSpawnRate =
      min ((0.006 : ℚ) + ((updateGame sample g).score : ℚ) * 0.000008) 0.015
    ∧ (S ≤ T → speed S ≤ speed T)
    ∧ (S ≤ T → spawnRate S ≤ spawnRate T)
    ∧ speed S ≤ 6.0
    ∧ spawnRate S ≤ 0.015
    ∧ speed 0 = 1.5
    ∧ spawnRate 0 = 0.006 := by
  refine ⟨?_, ?_, ?_, ?_, ?_, ?_, ?_, ?_⟩
  · rw [updateGame_run hrun]; rfl
  · rw [updateGame_run hrun]; rfl
  · intro hST
    unfold speed
    have hc : (S : ℚ) ≤ (T : ℚ) := by exact_mod_cast hST
    exact min_le_min (by nlinarith) le_rfl
  · intro hST
    unfold spawnRate
    have hc : (S : ℚ) ≤ (T : ℚ) := by exact_mod_cast hST
    exact min_le_min (by nlinarith) le_rfl
  · exact min_le_right _ _
  · exact min_le_right _ _
  · unfold speed; norm_num
  · unfold spawnRate; norm_num

/-- C7 witness: the theorem applied at a concrete running state. -/
theorem c7_difficulty_witness :
    (updateGame ((1:ℚ)/2) startedState).gameSpeed =
      min ((1.5 : ℚ) + ((updateGame ((1:ℚ)/2) startedState).score : ℚ) * 0.0008)
        6.0
    ∧ speed 0 ≤ speed 100 := by
  have h := c7_difficulty 0 100 startedState ((1:ℚ)/2) rfl
  exact ⟨h.1, h.2.2.1 (by decide)⟩

lemma processObstacle_allPassed {g : GameState} {k : ℕ}
    (h : ∀ p ∈ g.obstacles, p.passed = true) :
    (∀ p ∈ (processObstacle g k).obstacles, p.passed = true) ∧
    (processObstacle g k).score = g.score := by
  cases hk : g.obstacles[k]? with
  | none => rw [processObstacle_none hk]; exact ⟨h, rfl⟩
  | some o =>
    have hop : o.passed = true := h o (List.getElem?_mem hk)
    constructor
    · intro p hp
      unfold processObstacle at hp
      rw [hk] at hp
      simp only [hop, Bool.not_true, Bool.false_and] at hp
      have hp1 : p ∈ g.obstacles.set k
          { o with x := o.x - g.gameSpeed, passed := true } := by
        by_cases hc : o.x - g.gameSpeed + o.width < 0
        · exact (List.eraseIdx_sublist _ _).subset (by simpa [hc] using hp)
        · simpa [hc] using hp
      rcases List.mem_or_eq_of_mem_set hp1 with h1 | h1
      · exact h p h1
      · rw [h1]
    · rw [processObstacle_score_some hk]
      simp [hop]

lemma obstacleLoop_allPassed (fuel : ℕ) : ∀ (k : ℕ) (g : GameState),
    (∀ p ∈ g.obstacles, p.passed = true) →
    (obstacleLoop fuel k g).score = g.score := by
  induction fuel with
  | zero => intro k g _; rfl
  | succ n ih =>
    intro k g h
    simp only [obstacleLoop]
    obtain ⟨hmem, hsc⟩ := processObstacle_allPassed (k := k) h
    rw [ih (k + 1) _ hmem, hsc]

/--
C8: the per-obstacle pass block adds exactly 10 to the score precisely when
the visited obstacle's passed flag is false and its moved trailing edge has
crossed the player's centre (and marks it passed), so an obstacle already
marked passed never scores again; consequently every update changes the
score by a multiple of 10, the score is monotonically non-decreasing, it
stays a multiple of 10, and an iteration over obstacles that are all
already passed leaves the score unchanged.
-/
theorem c8_score (g : GameState) (sample : ℚ) (fuel k j : ℕ) (o : Obstacle) :
    (g.obstacles[j]? = some o →
      (processObstacle g j).score = g.score +
        (if o.passed = false ∧
            o.x - g.gameSpeed + o.width < g.player.x + g.player.width / 2
         then 10 else 0))
    ∧ (∃ m, (updateGame sample g).score = g.score + 10 * m)
    ∧ g.score ≤ (updateGame sample g).score
    ∧ (10 ∣ g.score → 10 ∣ (updateGame sample g).score)
    ∧ ((∀ p ∈ g.obstacles, p.passed = true) →
        (obstacleLoop fuel k g).score = g.score) := by
  have hex : ∃ m, (updateGame sample g).score = g.score + 10 * m := by
    cases hb : (!g.gameStarted || g.gameOver || g.gameWon) with
    | true => exact ⟨0, by rw [updateGame_gate hb]; omega⟩
    | false =>
      rw [updateGame_run hb, runTick_score]
      obtain ⟨m, hm⟩ := obstacleLoop_score
        (spawnStep sample (physicsStep g)).obstacles.length 0
        (spawnStep sample (physicsStep g))
      refine ⟨m, ?_⟩
      rw [hm, spawnStep_score, physicsStep_score]
  refine ⟨fun h => processObstacle_score_some h, hex, ?_, ?_, ?_⟩
  · obtain ⟨m, hm⟩ := hex; omega
  · intro hdvd; obtain ⟨m, hm⟩ := hex; omega
  · intro hall
    exact obstacleLoop_allPassed fuel k g hall

/-- A running state with one unpassed obstacle crossing the pass line. -/
def gPass : GameState :=
  { startedState with obstacles := [⟨380, 175, 18, 25, false⟩] }

/-- C8 witness: the theorem applied at concrete states. -/
theorem c8_score_witness :
    (processObstacle gPass 0).score = gPass.score + 10
    ∧ 10 ∣ (updateGame ((1:ℚ)/2) gPass).score
    ∧ (obstacleLoop 1 0 gSkip).score = gSkip.score := by
  obtain ⟨h1, _, _, h4, _⟩ :=
    c8_score gPass ((1:ℚ)/2) 1 0 0 ⟨380, 175, 18, 25, false⟩
  refine ⟨?_, h4 ⟨0, rfl⟩, ?_⟩
  · rw [h1 rfl]
    with_unfolding_all decide
  · obtain ⟨_, _, _, _, h5s⟩ :=
      c8_score gSkip ((1:ℚ)/2) 1 0 0 ⟨380, 175, 18, 25, false⟩
    refine h5s ?_
    intro p hp
    have hpe : p = oOff := by simpa [gSkip] using hp
    rw [hpe]
    rfl

set_option maxRecDepth 100000 in
set_option maxHeartbeats 1000000 in
/--
C9: issuing the jump command while the lifecycle is running and the player
is grounded sets the vertical velocity to the jump impulse (jumpPower = -10)
and the jumping flag; iterating the update step from the freshly started
session then returns the player to the ground y = 150 with the jumping flag
cleared and zero velocity after finitely many ticks (66 with the source
constants gravity = 0.3 and jumpPower = -10).
-/
theorem c9_jump (g : GameState) (h1 : g.gameStarted = true)
    (h2 : g.gameOver = false) (h3 : g.gameWon = false)
    (h4 : g.player.isJumping = false) :
    (jump g).player.velocityY = g.jumpPower
    ∧ (jump g).player.isJumping = true
    ∧ (jump startedState).player.velocityY = -10
    ∧ ∃ n, (((updateGame ((1:ℚ)/2))^[n]) (jump startedState)).player.y = 150
        ∧ (((updateGame ((1:ℚ)/2))^[n]) (jump startedState)).player.isJumping
            = false
        ∧ (((updateGame ((1:ℚ)/2))^[n]) (jump startedState)).player.velocityY
            = 0 := by
  refine ⟨?_, ?_, rfl, 66, ?_⟩
  · simp [jump, h1, h2, h3, h4]
  · simp [jump, h1, h2, h3, h4]
  · with_unfolding_all decide

/-- C9 witness: the theorem applied at the freshly started session state. -/
theorem c9_jump_witness :
    (jump startedState).player.velocityY = startedState.jumpPower
    ∧ (jump startedState).player.isJumping = true := by
  have h := c9_jump startedState rfl rfl rfl rfl
  exact ⟨h.1, h.2.1⟩

end TRex
